import Mathlib

/-!
Verification of the Lienify waiver generator (`app.py`): the template
selector (`TEMPLATE_MAP` / the `cond` computation in the generate handler)
and the placeholder substitution engine (`replace_placeholders_in_doc`),
together with the generate-and-download control flow.

Text is modelled as `List Char` (Python `str` code points).  Python's
`str.replace` is the left-to-right, non-overlapping scan `replaceList`
below; Python's `in` on strings is `List.IsInfix`.  The python-docx
objects are modelled by their documented text behaviour: a paragraph's
`text` is the concatenation of its runs' texts and assigning `text`
replaces the runs by a single run; a cell's `text` joins its paragraphs'
texts with a newline and assigning it replaces the content by a single
paragraph with a single run.
-/

namespace Lienify

/-- Python strings as lists of code points. -/
abbrev Str := List Char

/-- Fuel-driven scan implementing Python `str.replace` for a non-empty
pattern: at each position, if the pattern is a prefix, emit the
replacement and skip the pattern, otherwise copy one character.  All
patterns used by `app.py` are non-empty placeholder keys. -/
def replaceAux (pat rep : Str) : Str → Nat → Str
  | s, 0 => s
  | [], _ + 1 => []
  | c :: cs, fuel + 1 =>
    if pat ≠ [] ∧ pat.isPrefixOf (c :: cs) then
      rep ++ replaceAux pat rep (List.drop pat.length (c :: cs)) fuel
    else
      c :: replaceAux pat rep cs fuel

/-- `s.replace(pat, rep)` (Python), for the non-empty patterns used here. -/
def replaceList (pat rep s : Str) : Str := replaceAux pat rep s s.length

/-! ## Template selection (`TEMPLATE_MAP`, app.py lines 20-25 and 458-461) -/

def condProgressFile : Str :=
  "CONDITIONAL WAIVER AND RELEASE ON PROGRESS PAYMENT.pdf".data

def uncondProgressFile : Str :=
  "UNCONDITIONAL WAIVER AND RELEASE ON PROGRESS PAYMENT.pdf".data

def condFinalFile : Str :=
  "CONDITIONAL WAIVER AND RELEASE ON FINAL PAYMENT.pdf".data

def uncondFinalFile : Str :=
  "UNCONDITIONAL WAIVER AND RELEASE ON FINAL PAYMENT.pdf".data

/-- The `TEMPLATE_MAP` dict: keyed by `(payment_type, conditional?)`. -/
def TEMPLATE_MAP : List ((Str × Str) × Str) :=
  [ (("Progress".data, "Yes".data), condProgressFile),
    (("Progress".data, "No".data), uncondProgressFile),
    (("Final".data, "Yes".data), condFinalFile),
    (("Final".data, "No".data), uncondFinalFile) ]

/-- `dict.get`: first entry whose key matches, else `none`. -/
def lookupMap : List ((Str × Str) × Str) → (Str × Str) → Option Str
  | [], _ => none
  | kv :: rest, k => if kv.1 = k then some kv.2 else lookupMap rest k

/-- `cond = "Yes" if paid == "No" else "No"` (app.py line 460). -/
def condFlag (paid : Str) : Str :=
  if paid = "No".data then "Yes".data else "No".data

/-- The selection performed by the generate handler (app.py lines
458-461): `TEMPLATE_MAP.get((payment_type, cond))`. -/
def select_template (ptype paid : Str) : Option Str :=
  lookupMap TEMPLATE_MAP (ptype, condFlag paid)

/-! ## Document model (python-docx text behaviour) -/

/-- A paragraph: an ordered list of runs, each carrying text. -/
structure Para where
  runs : List Str
deriving DecidableEq

/-- `paragraph.text` getter: concatenation of the runs' texts. -/
def paraText (p : Para) : Str := p.runs.flatten

/-- `paragraph.text` setter: content replaced by a single run. -/
def setParaText (s : Str) : Para := ⟨[s]⟩

/-- A table cell: a list of paragraphs. -/
structure Cell where
  paras : List Para
deriving DecidableEq

/-- `cell.text` getter: paragraph texts joined with a newline. -/
def cellText (c : Cell) : Str :=
  List.intercalate ['\n'] (c.paras.map paraText)

/-- `cell.text` setter: content replaced by one paragraph with one run. -/
def setCellText (s : Str) : Cell := ⟨[⟨[s]⟩]⟩

/-- A table: a grid of cells (`table.rows`, `row.cells`). -/
structure Table where
  rows : List (List Cell)
deriving DecidableEq

/-- The document: body paragraphs and tables (`doc.paragraphs`,
`doc.tables`; python-docx body paragraphs exclude table contents). -/
structure DocModel where
  paragraphs : List Para
  tables : List Table
deriving DecidableEq

/-! ## Placeholder substitution (`replace_placeholders_in_doc`, lines 78-90) -/

/-- One iteration of the inner loop on a paragraph:
`if k in p.text: p.text = p.text.replace(k, v)`. -/
def substParaStep (p : Para) (kv : Str × Str) : Para :=
  if kv.1 <:+: paraText p then
    setParaText (replaceList kv.1 kv.2 (paraText p))
  else p

/-- The full `for k, v in mapping.items()` loop over one paragraph. -/
def substPara (p : Para) (m : List (Str × Str)) : Para :=
  m.foldl substParaStep p

/-- One iteration of the inner loop on a cell:
`if k in cell.text: cell.text = cell.text.replace(k, v)`. -/
def substCellStep (c : Cell) (kv : Str × Str) : Cell :=
  if kv.1 <:+: cellText c then
    setCellText (replaceList kv.1 kv.2 (cellText c))
  else c

/-- The full mapping loop over one cell. -/
def substCell (c : Cell) (m : List (Str × Str)) : Cell :=
  m.foldl substCellStep c

/-- The mapping loop applied to every cell of a table. -/
def substTable (t : Table) (m : List (Str × Str)) : Table :=
  ⟨t.rows.map (fun r => r.map (fun c => substCell c m))⟩

/-- `replace_placeholders_in_doc(doc, mapping)`: the paragraph loop then
the table loop. -/
def replace_placeholders_in_doc (doc : DocModel) (m : List (Str × Str)) :
    DocModel :=
  ⟨doc.paragraphs.map (fun p => substPara p m),
   doc.tables.map (fun t => substTable t m)⟩

/-- The same key loop acting on a bare string; `paraText` and `cellText`
commute with the loops into this function. -/
def substTextStep (s : Str) (kv : Str × Str) : Str :=
  if kv.1 <:+: s then replaceList kv.1 kv.2 s else s

/-- The key loop on a bare string. -/
def substText (s : Str) (m : List (Str × Str)) : Str :=
  m.foldl substTextStep s

/-- The texts of the body paragraphs, in order. -/
def docParaTexts (d : DocModel) : List Str := d.paragraphs.map paraText

/-- Every text of the document: body paragraphs, then all cells. -/
def docAllTexts (d : DocModel) : List Str :=
  docParaTexts d ++
    (d.tables.map
      (fun t => (t.rows.map (fun r => r.map cellText)).flatten)).flatten

/-- A double-braced placeholder token `\x7b\x7bName\x7d\x7d`, the shape of
every key built by the generate handler (app.py lines 479-492). -/
def brTok (A : Str) : Str := '\x7b' :: '\x7b' :: (A ++ ['\x7d', '\x7d'])

/-- A token name containing no brace character. -/
def braceFree (A : Str) : Prop := ∀ c ∈ A, c ≠ '\x7b' ∧ c ≠ '\x7d'

instance (A : Str) : Decidable (braceFree A) := by
  unfold braceFree
  infer_instance

/-! ## The Generate and Download handler (app.py lines 436-510) -/

/-- Session fields as the handler reads them.  Dates are modelled by
their `human_date` rendering (unset dates are `none`), which is how they
reach the placeholder map. -/
structure SessionFields where
  OwnerName : Option Str
  ProjectAddress : Option Str
  CustomerName : Option Str
  LienorName : Option Str
  LicenseNumber : Option Str
  PaymentAmount : Option Str
  ExecutionDate : Option Str
  JobNumber : Option Str
  PropertyDescription : Option Str
  first_delivery : Option Str
  work_through_date : Option Str
deriving DecidableEq

/-- Python falsiness of an optional string (`not v`). -/
def falsy : Option Str → Bool
  | none => true
  | some s => s.isEmpty

/-- Python `v or ""`. -/
def orEmpty : Option Str → Str
  | none => []
  | some s => s

/-- The `required_checks` list (lines 438-449). -/
def required_checks (f : SessionFields) : List (Str × Option Str) :=
  [ ("OwnerName".data, f.OwnerName),
    ("ProjectAddress".data, f.ProjectAddress),
    ("CustomerName".data, f.CustomerName),
    ("LienorName".data, f.LienorName),
    ("LicenseNumber".data, f.LicenseNumber),
    ("PaymentAmount".data, f.PaymentAmount),
    ("ExecutionDate".data, f.ExecutionDate),
    ("JobNumber".data, f.JobNumber),
    ("PropertyDescription".data, f.PropertyDescription),
    ("FirstDelivery".data, f.first_delivery) ]

/-- The names of the missing required fields, including the
Progress-only work-through-date check (lines 450-453). -/
def compute_missing (f : SessionFields) (ptype : Str) : List Str :=
  let m := ((required_checks f).filter (fun kv => falsy kv.2)).map
    (fun kv => kv.1)
  if ptype = "Progress".data ∧ falsy f.work_through_date then
    m ++ ["WorkThroughDate (required for Progress)".data]
  else m

/-- The placeholder map built at lines 479-492 (AuthorizedRep is mapped
to the empty string there). -/
def build_mapping (f : SessionFields) : List (Str × Str) :=
  [ ("\x7b\x7bOwnerName\x7d\x7d".data, orEmpty f.OwnerName),
    ("\x7b\x7bProjectAddress\x7d\x7d".data, orEmpty f.ProjectAddress),
    ("\x7b\x7bCustomerName\x7d\x7d".data, orEmpty f.CustomerName),
    ("\x7b\x7bLienorName\x7d\x7d".data, orEmpty f.LienorName),
    ("\x7b\x7bLicenseNumber\x7d\x7d".data, orEmpty f.LicenseNumber),
    ("\x7b\x7bPaymentAmount\x7d\x7d".data, orEmpty f.PaymentAmount),
    ("\x7b\x7bWorkThroughDate\x7d\x7d".data, orEmpty f.work_through_date),
    ("\x7b\x7bExecutionDate\x7d\x7d".data, orEmpty f.ExecutionDate),
    ("\x7b\x7bAuthorizedRep\x7d\x7d".data, []),
    ("\x7b\x7bJobNumber\x7d\x7d".data, orEmpty f.JobNumber),
    ("\x7b\x7bPropertyDescription\x7d\x7d".data, orEmpty f.PropertyDescription),
    ("\x7b\x7bFirstDeliveryDate\x7d\x7d".data, orEmpty f.first_delivery) ]

/-- `os.path.basename` for slash-separated archive entry names. -/
def basename (p : Str) : Str :=
  (p.reverse.takeWhile (fun c => c ≠ '/')).reverse

/-- Python `str.lower` on the ASCII names used here. -/
def lowerStr (s : Str) : Str := s.map Char.toLower

/-- `find_template_in_zip` (lines 43-55): the first archive entry whose
lowered name contains the state folder and whose basename contains the
lowered expected base name (".pdf" removed). -/
def find_template_in_zip (names : List Str) (expected stateFolder : Str) :
    Option Str :=
  names.find? (fun fn =>
    decide (lowerStr stateFolder <:+: lowerStr fn) &&
    decide (lowerStr (replaceList ".pdf".data [] expected) <:+:
      basename (lowerStr fn)))

/-- The match predicate of `find_template_in_zip` for the fixed
"arizona" folder used by the handler. -/
def templateMatch (expected fn : Str) : Bool :=
  decide (lowerStr "arizona".data <:+: lowerStr fn) &&
  decide (lowerStr (replaceList ".pdf".data [] expected) <:+:
    basename (lowerStr fn))

/-- External collaborators of the handler, modelled abstractly: whether
the template zip exists on disk, its entry list, reading an entry's
bytes, the python-docx parse of bytes, and today's date string. -/
structure GenEnv where
  zipExists : Bool
  zipNames : List Str
  zipRead : Str → List Nat
  parse : List Nat → Option DocModel
  today : Str

/-- The observable result of pressing Generate and Download.
`uncaughtError` models the `AttributeError` Python raises inside
`find_template_in_zip` when the selection is `None`;
`templateNotFoundError` models the error message of lines 466-467;
`documentParseError` models the `except` branch of lines 474-476 (error
message plus `st.stop`, so no output). -/
inductive GenOutcome where
  | missingFields (names : List Str)
  | zipMissing
  | uncaughtError
  | templateNotFoundError
  | documentParseError
  | download (doc : DocModel) (filename : Str)
deriving DecidableEq

/-- The download filename of line 501. -/
def displayName (ptype paid today : Str) : Str :=
  "Lienify_AZ_".data ++ ptype ++ "_".data ++
    (if condFlag paid = "Yes".data then "Conditional".data
     else "Unconditional".data) ++
    "_".data ++ today ++ ".docx".data

/-- The Generate and Download click handler (lines 436-510): field
validation, template selection, zip lookup, parse, substitution, then
the download offer. -/
def generateHandler (env : GenEnv) (f : SessionFields) (ptype paid : Str) :
    GenOutcome :=
  if compute_missing f ptype ≠ [] then
    GenOutcome.missingFields (compute_missing f ptype)
  else if env.zipExists = false then GenOutcome.zipMissing
  else
    match select_template ptype paid with
    | none => GenOutcome.uncaughtError
    | some fname =>
      match find_template_in_zip env.zipNames fname "arizona".data with
      | none => GenOutcome.templateNotFoundError
      | some internal =>
        match env.parse (env.zipRead internal) with
        | none => GenOutcome.documentParseError
        | some doc =>
            GenOutcome.download
              (replace_placeholders_in_doc doc (build_mapping f))
              (displayName ptype paid env.today)

/-- A complete set of session fields used by concrete handler runs. -/
def genFields : SessionFields :=
  ⟨some "O".data, some "P".data, some "C".data, some "L".data,
   some "N".data, some "A".data, some "E".data, some "J".data,
   some "D".data, some "F".data, some "W".data⟩

/-- A matching Arizona archive entry for the conditional Progress
template. -/
def azName1 : Str :=
  "arizona/conditional waiver and release on progress payment.docx".data

/-- A second, distinct matching entry for the same template. -/
def azName2 : Str :=
  "arizona/conditional waiver and release on progress payment copy.docx".data

/-- Environment whose template bytes fail to parse. -/
def c7env : GenEnv :=
  ⟨true, [azName1], fun _ => [], fun _ => none, "20260101".data⟩

/-- Environment with two matching archive entries and a parser that
succeeds with an empty document. -/
def c8env : GenEnv :=
  ⟨true, [azName1, azName2], fun _ => [], fun _ => some ⟨[], []⟩,
   "20260101".data⟩

/-! ## Theorems -/

/-- C1: for every pair (payment_type in Progress/Final, payment_received
in Yes/No) the selection of app.py lines 458-461 returns a distinct
identifier; payment received = Yes yields the unconditional waiver for
that payment type and No yields the conditional one, matching the fixed
4-entry table. -/
theorem C1_selection_table :
    select_template "Progress".data "Yes".data = some uncondProgressFile ∧
    select_template "Progress".data "No".data = some condProgressFile ∧
    select_template "Final".data "Yes".data = some uncondFinalFile ∧
    select_template "Final".data "No".data = some condFinalFile ∧
    ("UNCONDITIONAL".data <+: uncondProgressFile) ∧
    ("CONDITIONAL".data <+: condProgressFile) ∧
    ("UNCONDITIONAL".data <+: uncondFinalFile) ∧
    ("CONDITIONAL".data <+: condFinalFile) ∧
    ("PROGRESS".data <:+: uncondProgressFile) ∧
    ("PROGRESS".data <:+: condProgressFile) ∧
    ("FINAL".data <:+: uncondFinalFile) ∧
    ("FINAL".data <:+: condFinalFile) ∧
    uncondProgressFile ≠ condProgressFile ∧
    uncondProgressFile ≠ uncondFinalFile ∧
    uncondProgressFile ≠ condFinalFile ∧
    condProgressFile ≠ uncondFinalFile ∧
    condProgressFile ≠ condFinalFile ∧
    uncondFinalFile ≠ condFinalFile := by
  decide

/-- C2 counterexample: substitution does not try a bracketed form first;
it replaces the literal key as a substring, so a template paragraph
`Owner: [OWNER]` with map entry OWNER -> Jane Doe yields
`Owner: [Jane Doe]`, not the claimed `Owner: Jane Doe`. -/
theorem C2_counterexample :
    docParaTexts
        (replace_placeholders_in_doc ⟨[⟨["Owner: [OWNER]".data]⟩], []⟩
          [("OWNER".data, "Jane Doe".data)]) =
      ["Owner: [Jane Doe]".data] ∧
    "Owner: [Jane Doe]".data ≠ "Owner: Jane Doe".data := by
  decide

/-- C2 amended: substitution attempts no token-syntax priority order; each
map key is replaced wherever it occurs as a literal substring (a single
guarded `str.replace` per key), so the scenario template `Owner: [OWNER]`
with map entry OWNER -> Jane Doe produces `Owner: [Jane Doe]`. -/
theorem C2_amended (k v s : Str) (h : k <:+: s) :
    substText s [(k, v)] = replaceList k v s ∧
    substText "Owner: [OWNER]".data [("OWNER".data, "Jane Doe".data)] =
      "Owner: [Jane Doe]".data := by
  constructor
  · simp [substText, substTextStep, h]
  · decide

/-- C2 amended, witness at the scenario input. -/
theorem C2_amended_witness :
    substText "Owner: [OWNER]".data [("OWNER".data, "Jane Doe".data)] =
      replaceList "OWNER".data "Jane Doe".data "Owner: [OWNER]".data :=
  (C2_amended "OWNER".data "Jane Doe".data "Owner: [OWNER]".data
      (by decide)).1

/-- C3 counterexample: no `InvalidSelectionError` exists.  With
payment_received = "Maybe" (outside Yes/No) the selection silently
returns the unconditional Progress template, and with payment_type =
"Weekly" it returns `none` - in neither case is an error raised. -/
theorem C3_counterexample :
    select_template "Progress".data "Maybe".data = some uncondProgressFile ∧
    select_template "Weekly".data "Yes".data = none ∧
    "Maybe".data ≠ "Yes".data ∧ "Maybe".data ≠ "No".data ∧
    "Weekly".data ≠ "Progress".data ∧ "Weekly".data ≠ "Final".data := by
  decide

/-- C3 amended: out-of-domain inputs raise nothing.  Any payment_received
other than "No" (including unrecognized values) is treated as "Yes" and
yields the unconditional template of the payment type, and an
unrecognized payment_type makes the selection return `none`. -/
theorem C3_amended :
    (∀ pr : Str, pr ≠ "No".data →
      select_template "Progress".data pr = some uncondProgressFile ∧
      select_template "Final".data pr = some uncondFinalFile) ∧
    (∀ pt pr : Str, pt ≠ "Progress".data → pt ≠ "Final".data →
      select_template pt pr = none) := by
  constructor
  · intro pr hpr
    have hc : condFlag pr = "No".data := by simp [condFlag, hpr]
    constructor <;>
      simp [select_template, hc, TEMPLATE_MAP, lookupMap, Prod.ext_iff]
  · intro pt pr hp hf
    have h1 : "Progress".data ≠ pt := fun h => hp h.symm
    have h2 : "Final".data ≠ pt := fun h => hf h.symm
    simp [select_template, TEMPLATE_MAP, lookupMap, Prod.ext_iff, h1, h2]

/-- C3 amended, witness: payment_received = "Maybe" gives the
unconditional Progress template; payment_type = "Weekly" gives `none`. -/
theorem C3_amended_witness :
    select_template "Progress".data "Maybe".data = some uncondProgressFile ∧
    select_template "Weekly".data "Yes".data = none :=
  ⟨(C3_amended.1 "Maybe".data (by decide)).1,
   C3_amended.2 "Weekly".data "Yes".data (by decide) (by decide)⟩

/-! ### Structure of the substitution engine -/

theorem paraText_setParaText (s : Str) : paraText (setParaText s) = s := by
  simp [paraText, setParaText]

theorem cellText_setCellText (s : Str) : cellText (setCellText s) = s := by
  simp [cellText, setCellText, paraText, List.intercalate]

theorem paraText_substParaStep (p : Para) (kv : Str × Str) :
    paraText (substParaStep p kv) = substTextStep (paraText p) kv := by
  unfold substParaStep substTextStep
  by_cases h : kv.1 <:+: paraText p
  · simp [h, paraText_setParaText]
  · simp [h]

theorem cellText_substCellStep (c : Cell) (kv : Str × Str) :
    cellText (substCellStep c kv) = substTextStep (cellText c) kv := by
  unfold substCellStep substTextStep
  by_cases h : kv.1 <:+: cellText c
  · simp [h, cellText_setCellText]
  · simp [h]

theorem substPara_text (p : Para) (m : List (Str × Str)) :
    paraText (substPara p m) = substText (paraText p) m := by
  induction m generalizing p with
  | nil => rfl
  | cons kv m ih =>
      simp only [substPara, substText, List.foldl_cons] at ih ⊢
      rw [← paraText_substParaStep]
      exact ih (substParaStep p kv)

theorem substCell_text (c : Cell) (m : List (Str × Str)) :
    cellText (substCell c m) = substText (cellText c) m := by
  induction m generalizing c with
  | nil => rfl
  | cons kv m ih =>
      simp only [substCell, substText, List.foldl_cons] at ih ⊢
      rw [← cellText_substCellStep]
      exact ih (substCellStep c kv)

theorem substPara_single (s : Str) (m : List (Str × Str)) :
    substPara (setParaText s) m = setParaText (substText s m) := by
  induction m generalizing s with
  | nil => rfl
  | cons kv m ih =>
      simp only [substPara, substText, List.foldl_cons]
      have hstep :
          substParaStep (setParaText s) kv =
            setParaText (substTextStep s kv) := by
        unfold substParaStep substTextStep
        rw [paraText_setParaText]
        by_cases h : kv.1 <:+: s <;> simp [h]
      rw [hstep]
      exact ih (substTextStep s kv)

theorem substPara_no_key (p : Para) (m : List (Str × Str))
    (h : ∀ kv ∈ m, ¬ kv.1 <:+: paraText p) : substPara p m = p := by
  induction m with
  | nil => rfl
  | cons kv m ih =>
      have h0 : ¬ kv.1 <:+: paraText p := h kv (List.mem_cons_self kv m)
      simp only [substPara, List.foldl_cons, substParaStep, if_neg h0]
      exact ih (fun kv' hm => h kv' (List.mem_cons_of_mem kv hm))

theorem substCell_no_key (c : Cell) (m : List (Str × Str))
    (h : ∀ kv ∈ m, ¬ kv.1 <:+: cellText c) : substCell c m = c := by
  induction m with
  | nil => rfl
  | cons kv m ih =>
      have h0 : ¬ kv.1 <:+: cellText c := h kv (List.mem_cons_self kv m)
      simp only [substCell, List.foldl_cons, substCellStep, if_neg h0]
      exact ih (fun kv' hm => h kv' (List.mem_cons_of_mem kv hm))

theorem map_id_of_mem {α : Type} (l : List α) (f : α → α)
    (h : ∀ a ∈ l, f a = a) : l.map f = l := by
  induction l with
  | nil => rfl
  | cons a l ih =>
      simp only [List.map_cons, h a (List.mem_cons_self a l)]
      rw [ih (fun b hb => h b (List.mem_cons_of_mem a hb))]

/-- A document none of whose texts contains any key is left intact. -/
theorem replace_no_key (d : DocModel) (m : List (Str × Str))
    (h : ∀ s ∈ docAllTexts d, ∀ kv ∈ m, ¬ kv.1 <:+: s) :
    replace_placeholders_in_doc d m = d := by
  obtain ⟨ps, ts⟩ := d
  simp only [replace_placeholders_in_doc, DocModel.mk.injEq]
  constructor
  · refine map_id_of_mem ps _ (fun p hp => substPara_no_key p m ?_)
    refine h (paraText p) ?_
    exact List.mem_append_left _ (List.mem_map_of_mem paraText hp)
  · refine map_id_of_mem ts _ (fun t ht => ?_)
    obtain ⟨rows⟩ := t
    simp only [substTable, Table.mk.injEq]
    refine map_id_of_mem rows _ (fun r hr => ?_)
    refine map_id_of_mem r _ (fun c hc => substCell_no_key c m ?_)
    refine h (cellText c) (List.mem_append_right _ ?_)
    refine List.mem_flatten.mpr ⟨(rows.map (fun r => r.map cellText)).flatten,
      List.mem_map_of_mem _ ht, ?_⟩
    exact List.mem_flatten.mpr
      ⟨r.map cellText, List.mem_map_of_mem _ hr,
        List.mem_map_of_mem cellText hc⟩

/-- C4: matching operates on the concatenation of run texts (the text of
a substituted paragraph is the key loop applied to the concatenated
text, so tokens split across runs are still found), and whenever that
text changes the run structure becomes one single run carrying the fully
substituted text. -/
theorem C4_cross_run_collapse (p : Para) (m : List (Str × Str)) :
    paraText (substPara p m) = substText (paraText p) m ∧
    (paraText (substPara p m) ≠ paraText p →
      (substPara p m).runs = [substText (paraText p) m]) := by
  refine ⟨substPara_text p m, ?_⟩
  induction m generalizing p with
  | nil => intro h; exact absurd rfl h
  | cons kv m ih =>
      intro hch
      by_cases h0 : kv.1 <:+: paraText p
      · have hstep :
            substParaStep p kv =
              setParaText (substTextStep (paraText p) kv) := by
          unfold substParaStep substTextStep
          rw [if_pos h0, if_pos h0]
        simp only [substPara, substText, List.foldl_cons, hstep] at hch ⊢
        have hs := substPara_single (substTextStep (paraText p) kv) m
        simp only [substPara] at hs
        rw [hs]
        rfl
      · have hstep : substParaStep p kv = p := by
          unfold substParaStep
          rw [if_neg h0]
        have hT : substTextStep (paraText p) kv = paraText p := by
          unfold substTextStep
          rw [if_neg h0]
        simp only [substPara, substText, List.foldl_cons, hstep, hT] at hch ⊢
        exact ih p hch

/-- C4 witness: the token split across two runs as in the claim is found
on the concatenation and the paragraph collapses to one run. -/
theorem C4_witness :
    paraText (substPara ⟨["\x7b\x7bOwn".data, "erName\x7d\x7d".data]⟩
        [("\x7b\x7bOwnerName\x7d\x7d".data, "Jane Doe".data)]) ≠
      paraText ⟨["\x7b\x7bOwn".data, "erName\x7d\x7d".data]⟩ ∧
    (substPara ⟨["\x7b\x7bOwn".data, "erName\x7d\x7d".data]⟩
        [("\x7b\x7bOwnerName\x7d\x7d".data, "Jane Doe".data)]).runs =
      [substText
        (paraText ⟨["\x7b\x7bOwn".data, "erName\x7d\x7d".data]⟩)
        [("\x7b\x7bOwnerName\x7d\x7d".data, "Jane Doe".data)]] :=
  ⟨by decide,
   (C4_cross_run_collapse ⟨["\x7b\x7bOwn".data, "erName\x7d\x7d".data]⟩
      [("\x7b\x7bOwnerName\x7d\x7d".data, "Jane Doe".data)]).2 (by decide)⟩

/-- C5 counterexample: with the map `[("ab", "Q"), ("\x7b\x7bX\x7d\x7d", "b")]`
no replacement value contains any key, yet on the one-paragraph document
`a\x7b\x7bX\x7d\x7d` one application yields text `ab` and a second
application turns it into `Q`: substitution is not idempotent under the
claimed side condition (replacing a key can create a fresh occurrence of
another key by juxtaposition). -/
theorem C5_counterexample :
    (([("ab".data, "Q".data), ("\x7b\x7bX\x7d\x7d".data, "b".data)] :
        List (Str × Str)).all fun kv =>
      ([("ab".data, "Q".data), ("\x7b\x7bX\x7d\x7d".data, "b".data)] :
          List (Str × Str)).all fun kv' =>
        !(decide (kv'.1 <:+: kv.2))) = true ∧
    docParaTexts
        (replace_placeholders_in_doc ⟨[⟨["a\x7b\x7bX\x7d\x7d".data]⟩], []⟩
          [("ab".data, "Q".data), ("\x7b\x7bX\x7d\x7d".data, "b".data)]) =
      ["ab".data] ∧
    docParaTexts
        (replace_placeholders_in_doc
          (replace_placeholders_in_doc ⟨[⟨["a\x7b\x7bX\x7d\x7d".data]⟩], []⟩
            [("ab".data, "Q".data), ("\x7b\x7bX\x7d\x7d".data, "b".data)])
          [("ab".data, "Q".data), ("\x7b\x7bX\x7d\x7d".data, "b".data)]) =
      ["Q".data] ∧
    ("Q".data : Str) ≠ "ab".data := by
  decide

/-- C5 amended: substitution is idempotent provided no placeholder key
occurs in any text of the once-substituted document (which the original
side condition fails to guarantee when a replacement creates a key
occurrence by juxtaposition): the second application is the identity. -/
theorem C5_amended (d : DocModel) (m : List (Str × Str))
    (h : ∀ s ∈ docAllTexts (replace_placeholders_in_doc d m),
      ∀ kv ∈ m, ¬ kv.1 <:+: s) :
    replace_placeholders_in_doc (replace_placeholders_in_doc d m) m =
      replace_placeholders_in_doc d m :=
  replace_no_key (replace_placeholders_in_doc d m) m h

/-- C5 amended, witness on a concrete document and map. -/
theorem C5_amended_witness :
    replace_placeholders_in_doc
        (replace_placeholders_in_doc ⟨[⟨["Hello \x7b\x7bX\x7d\x7d".data]⟩], []⟩
          [("\x7b\x7bX\x7d\x7d".data, "world".data)])
        [("\x7b\x7bX\x7d\x7d".data, "world".data)] =
      replace_placeholders_in_doc ⟨[⟨["Hello \x7b\x7bX\x7d\x7d".data]⟩], []⟩
        [("\x7b\x7bX\x7d\x7d".data, "world".data)] :=
  C5_amended ⟨[⟨["Hello \x7b\x7bX\x7d\x7d".data]⟩], []⟩
    [("\x7b\x7bX\x7d\x7d".data, "world".data)] (by decide)

/-- C9: substitution on a document whose body paragraphs contain no key
leaves every body paragraph unchanged, operates on tables cell by cell,
and rewrites each cell's text by the key loop (so a placeholder occurring
only inside a table cell is replaced there). -/
theorem C9_table_confinement (d : DocModel) (m : List (Str × Str))
    (hp : ∀ p ∈ d.paragraphs, ∀ kv ∈ m, ¬ kv.1 <:+: paraText p) :
    (replace_placeholders_in_doc d m).paragraphs = d.paragraphs ∧
    (replace_placeholders_in_doc d m).tables =
      d.tables.map (fun t => substTable t m) ∧
    ∀ t ∈ d.tables, ∀ r ∈ t.rows, ∀ c ∈ r,
      cellText (substCell c m) = substText (cellText c) m := by
  refine ⟨?_, rfl, fun t _ r _ c _ => substCell_text c m⟩
  exact map_id_of_mem d.paragraphs _ (fun p hmem => substPara_no_key p m (hp p hmem))

/-- C9 witness: a token only inside the table cell is replaced there
while the body paragraph is untouched. -/
theorem C9_witness :
    (replace_placeholders_in_doc
        ⟨[⟨["no tokens here".data]⟩],
         [⟨[[⟨[⟨["see \x7b\x7bFoo\x7d\x7d".data]⟩]⟩]]⟩]⟩
        [("\x7b\x7bFoo\x7d\x7d".data, "Bar".data)]).paragraphs =
      [⟨["no tokens here".data]⟩] ∧
    cellText (substCell ⟨[⟨["see \x7b\x7bFoo\x7d\x7d".data]⟩]⟩
        [("\x7b\x7bFoo\x7d\x7d".data, "Bar".data)]) = "see Bar".data :=
  ⟨(C9_table_confinement
      ⟨[⟨["no tokens here".data]⟩],
       [⟨[[⟨[⟨["see \x7b\x7bFoo\x7d\x7d".data]⟩]⟩]]⟩]⟩
      [("\x7b\x7bFoo\x7d\x7d".data, "Bar".data)] (by decide)).1,
   by decide⟩

/-- C10: a paragraph (or cell) whose text contains no key of the map is
completely unchanged by substitution - text and run structure alike -
because rewriting is guarded by an occurrence check. -/
theorem C10_no_key_frame (p : Para) (c : Cell) (m : List (Str × Str))
    (hp : ∀ kv ∈ m, ¬ kv.1 <:+: paraText p)
    (hc : ∀ kv ∈ m, ¬ kv.1 <:+: cellText c) :
    substPara p m = p ∧ substCell c m = c :=
  ⟨substPara_no_key p m hp, substCell_no_key c m hc⟩

/-- C10 witness at a concrete multi-run paragraph and cell. -/
theorem C10_witness :
    substPara ⟨["hello ".data, "world".data]⟩
        [("\x7b\x7bX\x7d\x7d".data, "y".data)] =
      ⟨["hello ".data, "world".data]⟩ ∧
    substCell ⟨[⟨["cell text".data]⟩]⟩
        [("\x7b\x7bX\x7d\x7d".data, "y".data)] =
      ⟨[⟨["cell text".data]⟩]⟩ :=
  C10_no_key_frame ⟨["hello ".data, "world".data]⟩ ⟨[⟨["cell text".data]⟩]⟩
    [("\x7b\x7bX\x7d\x7d".data, "y".data)] (by decide) (by decide)

/-! ### Brace-delimited tokens never overlap distinct brace-delimited keys -/

theorem replaceAux_zero (pat rep s : Str) : replaceAux pat rep s 0 = s := by
  cases s <;> rfl

theorem replaceAux_nil (pat rep : Str) (fuel : Nat) :
    replaceAux pat rep [] fuel = [] := by
  cases fuel <;> rfl

theorem replaceAux_cons (pat rep : Str) (c : Char) (cs : Str) (fuel : Nat) :
    replaceAux pat rep (c :: cs) (fuel + 1) =
      if pat ≠ [] ∧ pat.isPrefixOf (c :: cs) then
        rep ++ replaceAux pat rep (List.drop pat.length (c :: cs)) fuel
      else
        c :: replaceAux pat rep cs fuel := rfl

/-- Brace-free names followed by a closing brace can be cancelled. -/
theorem braceFree_append_eq :
    ∀ (A B x y : Str), braceFree A → braceFree B →
      A ++ '\x7d' :: x = B ++ '\x7d' :: y → A = B := by
  intro A
  induction A with
  | nil =>
      intro B x y _ hB h
      cases B with
      | nil => rfl
      | cons b B =>
          simp only [List.nil_append, List.cons_append, List.cons.injEq] at h
          exact absurd h.1.symm (hB b (List.mem_cons_self b B)).2
  | cons a A ih =>
      intro B x y hA hB h
      cases B with
      | nil =>
          simp only [List.nil_append, List.cons_append, List.cons.injEq] at h
          exact absurd h.1 (hA a (List.mem_cons_self a A)).2
      | cons b B =>
          simp only [List.cons_append, List.cons.injEq] at h
          rw [h.1, ih B x y (fun c hc => hA c (List.mem_cons_of_mem a hc))
            (fun c hc => hB c (List.mem_cons_of_mem b hc)) h.2]

/-- A nonempty string that is at once a suffix of one braced token and a
prefix of another forces the two names to coincide. -/
theorem brTok_shared_edge_eq :
    ∀ (A B p : Str), braceFree A → braceFree B → p ≠ [] →
      p <:+ brTok A → p <+: brTok B → A = B := by
  intro A B p hA hB hp hsuf hpre
  obtain ⟨u, hu⟩ := hsuf
  obtain ⟨w, hw⟩ := hpre
  cases p with
  | nil => exact absurd rfl hp
  | cons p0 p1 =>
      simp only [brTok, List.cons_append, List.cons.injEq] at hw
      obtain ⟨hp0, hw1⟩ := hw
      subst hp0
      cases u with
      | nil =>
          simp only [brTok, List.nil_append, List.cons.injEq] at hu
          obtain ⟨_, hp1⟩ := hu
          rw [hp1] at hw1
          simp only [List.cons_append, List.cons.injEq] at hw1
          have h2 : A ++ '\x7d' :: ('\x7d' :: w) = B ++ '\x7d' :: ['\x7d'] := by
            have := hw1.2
            simpa [List.append_assoc] using this
          exact braceFree_append_eq A B _ _ hA hB h2
      | cons u0 u1 =>
          simp only [brTok, List.cons_append, List.cons.injEq] at hu
          obtain ⟨_, hu1⟩ := hu
          cases u1 with
          | nil =>
              simp only [List.nil_append, List.cons.injEq] at hu1
              obtain ⟨_, hp1⟩ := hu1
              rw [hp1] at hw1
              cases A with
              | nil => simp at hw1
              | cons a A' =>
                  simp only [List.cons_append, List.cons.injEq] at hw1
                  exact absurd hw1.1 (hA a (List.mem_cons_self a A')).1
          | cons u2 u3 =>
              simp only [List.cons_append, List.cons.injEq] at hu1
              obtain ⟨_, hu3⟩ := hu1
              exfalso
              have hmem : '\x7b' ∈ u3 ++ '\x7b' :: p1 := by simp
              rw [hu3] at hmem
              rcases List.mem_append.mp hmem with hin | hin
              · exact (hA '\x7b' hin).1 rfl
              · simp at hin

/-- Distinct brace-free names give non-overlapping braced tokens: neither
token is an infix of the other. -/
theorem brTok_not_infix :
    ∀ (A B : Str), braceFree A → braceFree B → A ≠ B →
      ¬ brTok A <:+: brTok B := by
  intro A B hA hB hAB h
  obtain ⟨u, w, huw⟩ := h
  cases u with
  | nil =>
      simp only [brTok, List.nil_append, List.cons_append, List.cons.injEq] at huw
      have h2 : A ++ '\x7d' :: ('\x7d' :: w) = B ++ '\x7d' :: ['\x7d'] := by
        have := huw.2.2
        simpa [List.append_assoc] using this
      exact hAB (braceFree_append_eq A B _ _ hA hB h2)
  | cons u0 u1 =>
      simp only [brTok, List.cons_append, List.cons.injEq] at huw
      obtain ⟨_, huw1⟩ := huw
      cases u1 with
      | nil =>
          simp only [List.nil_append, List.cons_append, List.cons.injEq] at huw1
          cases B with
          | nil => simp at huw1
          | cons b B' =>
              simp only [List.cons_append, List.cons.injEq] at huw1
              exact (hB b (List.mem_cons_self b B')).1 huw1.2.1.symm
      | cons u2 u3 =>
          simp only [List.cons_append, List.cons.injEq] at huw1
          obtain ⟨_, hu3⟩ := huw1
          have hmem : '\x7b' ∈ B ++ ['\x7d', '\x7d'] := by
            rw [← hu3]
            simp [brTok]
          rcases List.mem_append.mp hmem with hin | hin
          · exact (hB '\x7b' hin).1 rfl
          · simp at hin

/-- Key occurrences cannot start inside an occurrence of a different
braced token: the key is never a prefix of any proper tail of the token
(whatever follows it). -/
theorem brTok_no_overlap_drop :
    ∀ (A B : Str), braceFree A → braceFree B → A ≠ B →
      ∀ (j : Nat) (w : Str), j < (brTok B).length →
        ¬ brTok A <+: ((brTok B).drop j ++ w) := by
  intro A B hA hB hAB j w hj h
  have hpne : (brTok B).drop j ≠ [] := by
    intro h0
    rw [List.drop_eq_nil_iff] at h0
    omega
  have hsuf : (brTok B).drop j <:+ brTok B := List.drop_suffix j (brTok B)
  rcases List.prefix_or_prefix_of_prefix h
      ( List.prefix_append ((brTok B).drop j) w) with h1 | h2
  · exact brTok_not_infix A B hA hB hAB
      (List.IsInfix.trans ( List.IsPrefix.isInfix h1)
        ( List.IsSuffix.isInfix hsuf))
  · exact hAB (brTok_shared_edge_eq B A ((brTok B).drop j) hB hA hpne hsuf h2).symm

/-- The scan copies verbatim any prefix region in which the pattern never
matches. -/
theorem replaceAux_skip (pat rep : Str) :
    ∀ (fuel : Nat) (t s : Str), t <+: s →
      (∀ j, j < t.length → ¬ pat <+: s.drop j) →
      ∃ rest, replaceAux pat rep s fuel = t ++ rest := by
  intro fuel
  induction fuel with
  | zero =>
      intro t s ht _
      obtain ⟨r, hr⟩ := ht
      exact ⟨r, by rw [replaceAux_zero, ← hr]⟩
  | succ fuel ih =>
      intro t s ht hcond
      cases t with
      | nil => exact ⟨replaceAux pat rep s (fuel + 1), by simp⟩
      | cons c t' =>
          obtain ⟨r, hr⟩ := ht
          subst hr
          have h0 : ¬ pat <+: ((c :: t') ++ r) := by
            have := hcond 0 (by simp)
            simpa using this
          have hng : ¬ (pat ≠ [] ∧ pat.isPrefixOf (c :: (t' ++ r))) := by
            intro hand
            exact h0 (List.isPrefixOf_iff_prefix.mp hand.2)
          have hcond' : ∀ j, j < t'.length → ¬ pat <+: (t' ++ r).drop j := by
            intro j hj
            have := hcond (j + 1) (by simpa using Nat.succ_lt_succ hj)
            simpa [List.drop_succ_cons] using this
          obtain ⟨rest, hrest⟩ := ih t' (t' ++ r)
            ( List.prefix_append t' r) hcond'
          rw [List.cons_append, replaceAux_cons, if_neg hng]
          exact ⟨rest, by rw [hrest, List.cons_append]⟩

/-- Replacing a braced key with any value preserves every occurrence of a
braced token with a different brace-free name. -/
theorem replaceAux_keeps_brTok (A B : Str) (hA : braceFree A)
    (hB : braceFree B) (hAB : A ≠ B) (rep : Str) :
    ∀ (fuel : Nat) (s : Str), brTok B <:+: s →
      brTok B <:+: replaceAux (brTok A) rep s fuel := by
  intro fuel
  induction fuel with
  | zero => intro s h; rwa [replaceAux_zero]
  | succ fuel ih =>
      intro s h
      obtain ⟨u, w, huw⟩ := h
      cases u with
      | nil =>
          simp only [List.nil_append] at huw
          have hpre : brTok B <+: s := ⟨w, huw⟩
          have hcond : ∀ j, j < (brTok B).length → ¬ brTok A <+: s.drop j := by
            intro j hj hp
            have hdrop : s.drop j = (brTok B).drop j ++ w := by
              rw [← huw, List.drop_append_of_le_length (Nat.le_of_lt hj)]
            rw [hdrop] at hp
            exact brTok_no_overlap_drop A B hA hB hAB j w hj hp
          obtain ⟨rest, hrest⟩ :=
            replaceAux_skip (brTok A) rep (fuel + 1) (brTok B) s hpre hcond
          rw [hrest]
          exact List.IsPrefix.isInfix ( List.prefix_append (brTok B) rest)
      | cons c u' =>
          cases s with
          | nil => simp at huw
          | cons c0 cs =>
              have hs : (c :: u') ++ (brTok B ++ w) = c0 :: cs := by
                rw [← List.append_assoc]; exact huw
              have hpair : c = c0 ∧ u' ++ (brTok B ++ w) = cs := by
                simpa using hs
              have hcs : u' ++ (brTok B ++ w) = cs := hpair.2
              rw [replaceAux_cons]
              by_cases hg : brTok A ≠ [] ∧ (brTok A).isPrefixOf (c0 :: cs)
              · rw [if_pos hg]
                have hpp : brTok A <+: (c0 :: cs) :=
                  List.isPrefixOf_iff_prefix.mp hg.2
                have hcu : (c :: u') <+: (c0 :: cs) := by
                  rw [← hs]; exact List.prefix_append (c :: u') (brTok B ++ w)
                have hlen : (brTok A).length ≤ (c :: u').length := by
                  rcases List.prefix_or_prefix_of_prefix hpp hcu with h1 | h2
                  · exact List.IsPrefix.length_le h1
                  · obtain ⟨q, hq⟩ := h2
                    rcases eq_or_ne q [] with hq0 | hq0
                    · rw [hq0, List.append_nil] at hq
                      rw [← hq]
                    · exfalso
                      have hqpre : q <+: brTok B ++ w := by
                        have h3 := hpp
                        rw [← hs, ← hq] at h3
                        exact (List.prefix_append_right_inj (c :: u')).mp h3
                      have hqsuf : q <:+ brTok A := ⟨c :: u', hq⟩
                      rcases List.prefix_or_prefix_of_prefix hqpre
                          ( List.prefix_append (brTok B) w) with h3 | h4
                      · exact hAB
                          (brTok_shared_edge_eq A B q hA hB hq0 hqsuf h3)
                      · exact brTok_not_infix B A hB hA
                          (fun hE => hAB hE.symm)
                          (List.IsInfix.trans ( List.IsPrefix.isInfix h4)
                            ( List.IsSuffix.isInfix hqsuf))
                have hdrop : (c0 :: cs).drop (brTok A).length =
                    ((c :: u').drop (brTok A).length) ++ (brTok B ++ w) := by
                  rw [← hs, List.drop_append_of_le_length hlen]
                have hin : brTok B <:+: (c0 :: cs).drop (brTok A).length := by
                  rw [hdrop]
                  exact ⟨(c :: u').drop (brTok A).length, w, by
                    rw [List.append_assoc]⟩
                have := ih ((c0 :: cs).drop (brTok A).length) hin
                exact List.IsInfix.trans this
                  ( List.IsSuffix.isInfix (List.suffix_append rep _))
              · rw [if_neg hg]
                have hin : brTok B <:+: cs :=
                  ⟨u', w, by rw [← hcs, List.append_assoc]⟩
                exact List.infix_cons (ih cs hin)

/-- Every occurrence of a braced token whose brace-free name differs from
the name of every (braced) key survives the whole key loop. -/
theorem substText_keeps_brTok (B : Str) (hB : braceFree B) :
    ∀ (m : List (Str × Str)),
      (∀ kv ∈ m, ∃ A, braceFree A ∧ A ≠ B ∧ kv.1 = brTok A) →
      ∀ s, brTok B <:+: s → brTok B <:+: substText s m := by
  intro m
  induction m with
  | nil => intro _ s h; exact h
  | cons kv m ih =>
      intro hm s h
      simp only [substText, List.foldl_cons]
      apply ih (fun kv' h' => hm kv' (List.mem_cons_of_mem kv h'))
      obtain ⟨A, hA, hAB, hk⟩ := hm kv (List.mem_cons_self kv m)
      unfold substTextStep
      by_cases hin : kv.1 <:+: s
      · rw [if_pos hin, hk]
        unfold replaceList
        exact replaceAux_keeps_brTok A B hA hB hAB kv.2 s.length s h
      · rwa [if_neg hin]

/-- C6 counterexample: the claim quantifies over every placeholder map,
but a key that is not itself a brace-delimited token can overlap and
destroy an unmapped token.  With the map key `\x7b\x7bF` (no entry for
the token `\x7b\x7bFoo\x7d\x7d`), substitution turns the paragraph
`\x7b\x7bFoo\x7d\x7d` into `Xoo\x7d\x7d`, which no longer contains the
token. -/
theorem C6_counterexample :
    "\x7b\x7bFoo\x7d\x7d".data ≠ "\x7b\x7bF".data ∧
    ("\x7b\x7bFoo\x7d\x7d".data <:+:
      paraText ⟨["\x7b\x7bFoo\x7d\x7d".data]⟩) ∧
    docParaTexts
        (replace_placeholders_in_doc ⟨[⟨["\x7b\x7bFoo\x7d\x7d".data]⟩], []⟩
          [("\x7b\x7bF".data, "X".data)]) = ["Xoo\x7d\x7d".data] ∧
    ¬ ("\x7b\x7bFoo\x7d\x7d".data <:+: "Xoo\x7d\x7d".data) := by
  decide

/-- C6 amended: restricted to brace-delimited keys (the shape of every
key the generator builds), every occurrence of a braced token whose name
has no entry in the map survives substitution verbatim, in body
paragraphs and in table cells alike, and substitution never fails on
such unresolved tokens. -/
theorem C6_amended (d : DocModel) (m : List (Str × Str)) (B : Str)
    (hB : braceFree B)
    (hm : ∀ kv ∈ m, ∃ A, braceFree A ∧ A ≠ B ∧ kv.1 = brTok A) :
    (∀ p ∈ d.paragraphs, brTok B <:+: paraText p →
      brTok B <:+: paraText (substPara p m)) ∧
    (∀ t ∈ d.tables, ∀ r ∈ t.rows, ∀ c ∈ r, brTok B <:+: cellText c →
      brTok B <:+: cellText (substCell c m)) ∧
    (replace_placeholders_in_doc d m).paragraphs =
      d.paragraphs.map (fun p => substPara p m) := by
  refine ⟨?_, ?_, rfl⟩
  · intro p _ h
    rw [substPara_text]
    exact substText_keeps_brTok B hB m hm (paraText p) h
  · intro t _ r _ c _ h
    rw [substCell_text]
    exact substText_keeps_brTok B hB m hm (cellText c) h

/-- C6 amended, witness: `\x7b\x7bFoo\x7d\x7d` survives a substitution
that replaces the distinct braced key `\x7b\x7bOwnerName\x7d\x7d`. -/
theorem C6_amended_witness :
    brTok "Foo".data <:+:
      paraText (substPara
        ⟨["\x7b\x7bFoo\x7d\x7d and \x7b\x7bOwnerName\x7d\x7d".data]⟩
        [("\x7b\x7bOwnerName\x7d\x7d".data, "Jane".data)]) :=
  (C6_amended
    ⟨[⟨["\x7b\x7bFoo\x7d\x7d and \x7b\x7bOwnerName\x7d\x7d".data]⟩], []⟩
    [("\x7b\x7bOwnerName\x7d\x7d".data, "Jane".data)] "Foo".data
    (by decide)
    (by
      intro kv hkv
      rw [List.mem_singleton] at hkv
      subst hkv
      exact ⟨"OwnerName".data, by decide, by decide, by decide⟩)).1
    ⟨["\x7b\x7bFoo\x7d\x7d and \x7b\x7bOwnerName\x7d\x7d".data]⟩
    (by decide) (by decide)

/-! ### The generate handler -/

theorem find?_first {α : Type} (p : α → Bool) :
    ∀ (l₁ : List α) (a : α) (l₂ : List α),
      (∀ x ∈ l₁, p x = false) → p a = true →
      (l₁ ++ a :: l₂).find? p = some a := by
  intro l₁
  induction l₁ with
  | nil =>
      intro a l₂ _ ha
      simp [List.find?_cons, ha]
  | cons x l ih =>
      intro a l₂ h ha
      have hx : p x = false := h x (List.mem_cons_self x l)
      simp only [List.cons_append, List.find?_cons, hx, cond_false]
      exact ih a l₂ (fun y hy => h y (List.mem_cons_of_mem x hy)) ha

/-- `find_template_in_zip` for the "arizona" folder is the first-match
search under `templateMatch`. -/
theorem find_template_eq_find? (names : List Str) (expected : Str) :
    find_template_in_zip names expected "arizona".data =
      names.find? (templateMatch expected) := rfl

/-- C7: when the selected template's bytes do not parse as a document
the handler takes the parse-failure branch (error shown, `st.stop`): no
download is offered and no output document is produced. -/
theorem C7_parse_failure (env : GenEnv) (f : SessionFields)
    (ptype paid fname internal : Str)
    (hm : compute_missing f ptype = [])
    (hz : env.zipExists = true)
    (hs : select_template ptype paid = some fname)
    (hf : find_template_in_zip env.zipNames fname "arizona".data =
      some internal)
    (hp : env.parse (env.zipRead internal) = none) :
    generateHandler env f ptype paid = GenOutcome.documentParseError ∧
    ∀ d n, generateHandler env f ptype paid ≠ GenOutcome.download d n := by
  have h1 : generateHandler env f ptype paid =
      GenOutcome.documentParseError := by
    unfold generateHandler
    simp [hm, hz, hs, hf, hp]
  refine ⟨h1, fun d n h => ?_⟩
  rw [h1] at h
  exact GenOutcome.noConfusion h

/-- C7 witness: a concrete run whose parser rejects the bytes. -/
theorem C7_witness :
    generateHandler c7env genFields "Progress".data "No".data =
      GenOutcome.documentParseError ∧
    ∀ d n, generateHandler c7env genFields "Progress".data "No".data ≠
      GenOutcome.download d n :=
  C7_parse_failure c7env genFields "Progress".data "No".data
    condProgressFile azName1 (by decide) rfl (by decide) (by decide) rfl

/-- C8 counterexample: with two distinct matching archive entries the
lookup silently resolves to the first one and generation proceeds - it
is not reported as a template-unavailable failure, contradicting the
claimed "more than one matching file" error. -/
theorem C8_counterexample :
    templateMatch condProgressFile azName1 = true ∧
    templateMatch condProgressFile azName2 = true ∧
    azName1 ≠ azName2 ∧
    c8env.zipNames = [azName1, azName2] ∧
    find_template_in_zip c8env.zipNames condProgressFile "arizona".data =
      some azName1 ∧
    generateHandler c8env genFields "Progress".data "No".data ≠
      GenOutcome.templateNotFoundError := by
  decide

/-- C8 amended: a missing match aborts generation with the
template-unavailable error and no download is produced, while with one
or more matching files the lookup resolves to the first matching archive
entry and generation proceeds past template lookup (no ambiguity
error). -/
theorem C8_amended (env : GenEnv) (f : SessionFields) (ptype paid fname : Str)
    (hm : compute_missing f ptype = [])
    (hz : env.zipExists = true)
    (hs : select_template ptype paid = some fname) :
    (find_template_in_zip env.zipNames fname "arizona".data = none →
      generateHandler env f ptype paid = GenOutcome.templateNotFoundError ∧
      ∀ d n, generateHandler env f ptype paid ≠ GenOutcome.download d n) ∧
    (∀ (l₁ : List Str) (n : Str) (l₂ : List Str),
      env.zipNames = l₁ ++ n :: l₂ →
      (∀ x ∈ l₁, templateMatch fname x = false) →
      templateMatch fname n = true →
      find_template_in_zip env.zipNames fname "arizona".data = some n ∧
      generateHandler env f ptype paid ≠ GenOutcome.templateNotFoundError) := by
  constructor
  · intro hf
    have h1 : generateHandler env f ptype paid =
        GenOutcome.templateNotFoundError := by
      unfold generateHandler
      simp [hm, hz, hs, hf]
    refine ⟨h1, fun d n h => ?_⟩
    rw [h1] at h
    exact GenOutcome.noConfusion h
  · intro l₁ n l₂ hnames hmiss hn
    have hf : find_template_in_zip env.zipNames fname "arizona".data =
        some n := by
      rw [find_template_eq_find?, hnames]
      exact find?_first (templateMatch fname) l₁ n l₂ hmiss hn
    constructor
    · exact hf
    · unfold generateHandler
      simp only [hm, hz, hs, hf]
      cases env.parse (env.zipRead n) <;> simp

/-- C8 amended, witness: the two-match environment resolves to the first
entry and does not abort. -/
theorem C8_amended_witness :
    find_template_in_zip c8env.zipNames condProgressFile "arizona".data =
      some azName1 ∧
    generateHandler c8env genFields "Progress".data "No".data ≠
      GenOutcome.templateNotFoundError :=
  (C8_amended c8env genFields "Progress".data "No".data condProgressFile
      (by decide) rfl (by decide)).2
    [] azName1 [azName2] rfl (by simp) (by decide)

end Lienify
